import Mathlib

/-! Shallow embedding of the upload / processing state-synchronization layer
of the FormForge workout-builder front end: `src/lib/socket.ts`,
`src/contexts/FileProcessingContext.tsx`, `src/contexts/UploadContext.tsx`,
`src/contexts/file-processing-utils.ts` and
`src/components/ui/use-toast.ts`.

Modelling conventions: JavaScript strings are `String`; JavaScript numbers
are `Rat` (the embedded code only copies, compares, sums, divides and
rounds them); nullable / optional fields are `Option`; JavaScript
truthiness of a string is being non-empty. The `Map` in
`SocketService.idMappings` is an insertion-ordered association list. -/

namespace FormForge

/-- JS truthiness of a plain string: the empty string is falsy, every other
string is truthy. -/
def strTruthy (s : String) : Bool := s ≠ ""

/-- JS truthiness of a nullable string (`string | null` or
`string | undefined`): `null` / `undefined` and `""` are falsy. -/
def optStrTruthy : Option String → Bool
  | none => false
  | some s => s ≠ ""

/-! ## `src/lib/socket.ts`: the server-id to client-id mapping -/

/-- `SocketService.idMappings : Map<string, string>` (server id to client
id), modelled as an insertion-ordered association list with unique keys. -/
abbrev IdMap := List (String × String)

/-- `Map.prototype.set`: overwrite the value at an existing key in place,
otherwise append the new entry. -/
def mapSet (k v : String) : IdMap → IdMap
  | [] => [(k, v)]
  | (k', v') :: rest => if k' = k then (k, v) :: rest else (k', v') :: mapSet k v rest

/-- `Map.prototype.get`: the value stored at the key, if any. -/
def mapGet (k : String) : IdMap → Option String
  | [] => none
  | (k', v) :: rest => if k' = k then some v else mapGet k rest

/-- `SocketService.mapServerToClientId(serverId, clientId)`: store the
server-to-client relationship in `idMappings`. -/
def mapServerToClientId (m : IdMap) (serverId clientId : String) : IdMap :=
  mapSet serverId clientId m

/-- `SocketService.getClientId(serverId)`, which evaluates
`this.idMappings.get(serverId) || serverId`: the JS `||` falls through to
`serverId` both when no mapping exists and when the stored client id is the
empty string (a falsy value). -/
def getClientId (m : IdMap) (serverId : String) : String :=
  match mapGet serverId m with
  | some c => if c = "" then serverId else c
  | none => serverId

theorem mapGet_mapSet_self (k v : String) (m : IdMap) :
    mapGet k (mapSet k v m) = some v := by
  induction m with
  | nil => simp [mapSet, mapGet]
  | cons hd tl ih =>
    obtain ⟨k', v'⟩ := hd
    by_cases h : k' = k
    · simp [mapSet, mapGet, h]
    · simp [mapSet, mapGet, h, ih]

/-! ## `src/contexts/file-processing-utils.ts`: status vocabularies -/

/-- The socket-level `ProcessingStatus` union of `src/lib/socket.ts`. -/
inductive SocketStatus
  | analyzing
  | processing
  | embedding
  | file_complete
  | complete
  | error
  | partial_complete
  | partial_error
  deriving DecidableEq

/-- The UI-level processing status of the `FileProcessingContext`. -/
inductive UiStatus
  | idle
  | processing
  | complete
  | error
  deriving DecidableEq

/-- `mapSocketStatusToUiStatus` from `src/contexts/file-processing-utils.ts`
(and, identically, from `src/contexts/FileProcessingContext.tsx`): a missing
status falls to the leading `if (!status)` branch, and the switch sends
every member of the socket union to one of the three non-idle UI statuses.
The socket union is closed, so the switch's `default` arm coincides with
the four in-progress cases listed above it. -/
def mapSocketStatusToUiStatus (status : Option SocketStatus) : UiStatus :=
  match status with
  | none => .processing
  | some .complete => .complete
  | some .error => .error
  | some .partial_error => .error
  | some .partial_complete => .complete
  | some .analyzing => .processing
  | some .processing => .processing
  | some .embedding => .processing
  | some .file_complete => .processing

/-- C4: `mapSocketStatusToUiStatus` is total on the optional socket status,
returns `complete` for `complete` and `partial_complete`, `error` for
`error` and `partial_error`, `processing` for the four in-progress statuses
and for a missing status, and never returns `idle`. -/
theorem mapSocketStatusToUiStatus_spec :
    (∀ s : Option SocketStatus, mapSocketStatusToUiStatus s ≠ UiStatus.idle) ∧
    mapSocketStatusToUiStatus (some .complete) = .complete ∧
    mapSocketStatusToUiStatus (some .partial_complete) = .complete ∧
    mapSocketStatusToUiStatus (some .error) = .error ∧
    mapSocketStatusToUiStatus (some .partial_error) = .error ∧
    mapSocketStatusToUiStatus (some .analyzing) = .processing ∧
    mapSocketStatusToUiStatus (some .processing) = .processing ∧
    mapSocketStatusToUiStatus (some .embedding) = .processing ∧
    mapSocketStatusToUiStatus (some .file_complete) = .processing ∧
    mapSocketStatusToUiStatus none = .processing := by
  refine ⟨fun s => ?_, rfl, rfl, rfl, rfl, rfl, rfl, rfl, rfl, rfl⟩
  rcases s with _ | v
  · decide
  · cases v <;> decide

/-- C3 (amended): a freshly stored mapping is looked up again, `getClientId`
returns the stored client id whenever that id is non-empty, returns the
server id when the stored client id is the empty string, and passes an
unmapped id through unchanged. -/
theorem getClientId_spec :
    (∀ (m : IdMap) (s c : String),
      mapGet s (mapServerToClientId m s c) = some c) ∧
    (∀ (m : IdMap) (s c : String), c ≠ "" →
      getClientId (mapServerToClientId m s c) s = c) ∧
    (∀ (m : IdMap) (s : String),
      getClientId (mapServerToClientId m s "") s = s) ∧
    (∀ (m : IdMap) (s : String), mapGet s m = none → getClientId m s = s) := by
  refine ⟨fun m s c => mapGet_mapSet_self s c m, fun m s c hc => ?_, fun m s => ?_, fun m s h => ?_⟩
  · simp [getClientId, mapServerToClientId, mapGet_mapSet_self, hc]
  · simp [getClientId, mapServerToClientId, mapGet_mapSet_self]
  · simp [getClientId, h]

/-- C3 counterexample: after `mapServerToClientId("srv", "")` (an empty
client id), `getClientId("srv")` returns `"srv"`, not the stored client id
`""`, because the JS `||` treats the empty string as absent. -/
theorem getClientId_empty_cex :
    getClientId (mapServerToClientId [] "srv" "") "srv" = "srv" ∧
    getClientId (mapServerToClientId [] "srv" "") "srv" ≠ "" := by
  constructor
  · rfl
  · decide

/-! ## `src/contexts/UploadContext.tsx`: the upload file list -/

/-- The fields of a browser `File` object that the upload context reads. -/
structure JsFile where
  name : String
  type : String
  deriving DecidableEq

/-- The per-file upload status union of `UploadContext`. -/
inductive UploadStatus
  | idle
  | uploading
  | completed
  | error
  deriving DecidableEq

/-- `UploadFile` from `src/contexts/UploadContext.tsx`. -/
structure UploadFile where
  id : String
  file : JsFile
  uploadId : Option String
  fileId : Option String
  progress : Rat
  status : UploadStatus
  error : Option String
  deriving DecidableEq

/-- `UploadProgressData` from `src/lib/socket.ts`. -/
structure UploadProgressData where
  uploadId : String
  bytesReceived : Rat
  bytesExpected : Rat
  percent : Rat
  completed : Bool
  deriving DecidableEq

/-- `handleUploadProgress` from the socket-listener effect of
`UploadContext`: map over the file list, updating progress and status of a
file exactly when its (nullable) `uploadId` strictly equals the event's
`uploadId` and its status is not already `completed`. -/
def handleUploadProgress (files : List UploadFile) (data : UploadProgressData) :
    List UploadFile :=
  files.map fun file =>
    if file.uploadId = some data.uploadId ∧ file.status ≠ .completed then
      { file with progress := data.percent, status := .uploading }
    else file

/-- C5: an `uploadProgress` event updates exactly the matching,
not-yet-completed files (progress to the event's percent, status to
`uploading`) and leaves every other file — including completed files with a
matching `uploadId` — unchanged. -/
theorem handleUploadProgress_spec :
    (∀ (files : List UploadFile) (data : UploadProgressData),
      (handleUploadProgress files data).length = files.length) ∧
    (∀ (files : List UploadFile) (data : UploadProgressData) (i : Nat),
      (handleUploadProgress files data)[i]? = (files[i]?).map fun file =>
        if file.uploadId = some data.uploadId ∧ file.status ≠ .completed then
          { file with progress := data.percent, status := .uploading }
        else file) := by
  refine ⟨fun files data => ?_, fun files data i => ?_⟩
  · simp [handleUploadProgress]
  · simp [handleUploadProgress]

/-- JS `Math.round` on the rational model of JS numbers: round half toward
positive infinity. -/
def jsRound (q : Rat) : Rat := (((q + 1 / 2).floor : Int) : Rat)

/-- `files.every((file) => file.status === "completed" || file.status ===
"error")` from the recomputation effect of `UploadContext`. -/
def allFilesComplete (files : List UploadFile) : Bool :=
  files.all fun file => file.status = .completed || file.status = .error

/-- The `useEffect` of `UploadContext` that runs whenever `files` changes:
it recomputes `overallProgress` (0 on an empty list, otherwise the rounded
mean of the per-file progress values), recomputes `allUploadsComplete`
(false on an empty list, otherwise `allFilesComplete`), and clears
`isUploading` when everything is complete. The result is the triple
(overallProgress, allUploadsComplete, isUploading). -/
def recomputeUploadSummary (files : List UploadFile) (isUploading : Bool) :
    Rat × Bool × Bool :=
  if files.isEmpty then (0, false, isUploading)
  else
    let totalProgress := files.foldl (fun sum file => sum + file.progress) 0
    let newOverallProgress := jsRound (totalProgress / (files.length : Rat))
    let allComplete := allFilesComplete files
    (newOverallProgress, allComplete,
      if allComplete && isUploading then false else isUploading)

theorem foldl_add_progress (files : List UploadFile) (a : Rat) :
    files.foldl (fun sum file => sum + file.progress) a =
      a + (files.map UploadFile.progress).sum := by
  induction files generalizing a with
  | nil => simp
  | cons hd tl ih => simp [ih, add_assoc]

/-- C6: after the recomputation, `overallProgress` is 0 on an empty file
list and otherwise the integer rounding of the sum of the per-file progress
values divided by the number of files. -/
theorem overallProgress_spec :
    (∀ (b : Bool), (recomputeUploadSummary [] b).1 = 0) ∧
    (∀ (files : List UploadFile) (b : Bool), files ≠ [] →
      (recomputeUploadSummary files b).1 =
        jsRound ((files.map UploadFile.progress).sum / (files.length : Rat))) := by
  refine ⟨fun b => rfl, fun files b h => ?_⟩
  cases files with
  | nil => exact absurd rfl h
  | cons f fs =>
    have e : (recomputeUploadSummary (f :: fs) b).1 =
        jsRound (((f :: fs).foldl (fun sum file => sum + file.progress) 0) /
          (((f :: fs).length : Nat) : Rat)) := rfl
    rw [e, foldl_add_progress, zero_add]

/-- C7: after the recomputation, `allUploadsComplete` holds exactly when
the file list is non-empty and every file's status is `completed` or
`error`; when that holds while `isUploading` is true, `isUploading` is
cleared. -/
theorem allUploadsComplete_spec :
    (∀ (files : List UploadFile) (b : Bool),
      (recomputeUploadSummary files b).2.1 = true ↔
        files ≠ [] ∧ ∀ f ∈ files, f.status = .completed ∨ f.status = .error) ∧
    (∀ (files : List UploadFile) (b : Bool),
      (recomputeUploadSummary files b).2.1 = true → b = true →
        (recomputeUploadSummary files b).2.2 = false) := by
  constructor
  · intro files b
    cases files with
    | nil => simp [recomputeUploadSummary]
    | cons f fs =>
      have e : (recomputeUploadSummary (f :: fs) b).2.1 = allFilesComplete (f :: fs) := rfl
      rw [e]
      simp [allFilesComplete, List.all_eq_true]
  · intro files b h hb
    cases files with
    | nil => simp [recomputeUploadSummary] at h
    | cons f fs =>
      have e : (recomputeUploadSummary (f :: fs) b).2.1 = allFilesComplete (f :: fs) := rfl
      rw [e] at h
      show (if allFilesComplete (f :: fs) && b then false else b) = false
      rw [h, hb]
      rfl

/-- The file-type validation inside `addFiles`: PDF MIME type, a `.md` name
suffix, or the Markdown MIME type. -/
def isValidUpload (file : JsFile) : Bool :=
  file.type = "application/pdf" || file.name.endsWith ".md" ||
    file.type = "text/markdown"

/-- The `validFiles.map(...)` body of `addFiles`: one fresh `UploadFile`
per valid file, in order. The impure client id
(`client-file-Date.now()-random`) is modelled by an injected generator
applied to the position among the valid files. -/
def mkUploadEntries (idGen : Nat → String) (idx : Nat) :
    List JsFile → List UploadFile
  | [] => []
  | f :: fs =>
    { id := idGen idx, file := f, uploadId := none, fileId := none,
      progress := 0, status := UploadStatus.idle, error := none } ::
      mkUploadEntries idGen (idx + 1) fs

/-- `addFiles` from `src/contexts/UploadContext.tsx`: filter the incoming
files by `isValidUpload`, return the list unchanged when nothing is valid,
otherwise append one fresh entry per valid file (status `idle`, progress 0,
no upload or file id). -/
def addFiles (idGen : Nat → String) (prev : List UploadFile)
    (newFiles : List JsFile) : List UploadFile :=
  let validFiles := newFiles.filter isValidUpload
  if validFiles.isEmpty then prev
  else
    let newUploadFiles := mkUploadEntries idGen 0 validFiles
    prev ++ newUploadFiles

theorem mkUploadEntries_map_file (idGen : Nat → String) (idx : Nat)
    (l : List JsFile) :
    (mkUploadEntries idGen idx l).map UploadFile.file = l := by
  induction l generalizing idx with
  | nil => rfl
  | cons f fs ih => simp [mkUploadEntries, ih]

theorem mkUploadEntries_fresh (idGen : Nat → String) (idx : Nat)
    (l : List JsFile) :
    ∀ e ∈ mkUploadEntries idGen idx l,
      e.status = .idle ∧ e.progress = 0 ∧ e.uploadId = none ∧ e.fileId = none := by
  induction l generalizing idx with
  | nil => intro e he; simp [mkUploadEntries] at he
  | cons f fs ih =>
    intro e he
    rcases (by simpa [mkUploadEntries] using he : _ ∨ e ∈ mkUploadEntries idGen (idx + 1) fs) with h | h
    · subst h
      exact ⟨rfl, rfl, rfl, rfl⟩
    · exact ih (idx + 1) e h

/-- C10: `addFiles` keeps the existing files as a prefix, appends exactly
the valid incoming files (PDF MIME type, `.md` suffix or Markdown MIME
type) in input order, every appended entry starting with status `idle`,
progress 0 and null upload / file ids; when no incoming file is valid the
list is unchanged. -/
theorem addFiles_spec :
    (∀ (idGen : Nat → String) (prev : List UploadFile) (newFiles : List JsFile),
      (addFiles idGen prev newFiles).take prev.length = prev) ∧
    (∀ (idGen : Nat → String) (prev : List UploadFile) (newFiles : List JsFile),
      ((addFiles idGen prev newFiles).drop prev.length).map UploadFile.file =
        newFiles.filter isValidUpload) ∧
    (∀ (idGen : Nat → String) (prev : List UploadFile) (newFiles : List JsFile),
      ∀ e ∈ (addFiles idGen prev newFiles).drop prev.length,
        e.status = .idle ∧ e.progress = 0 ∧ e.uploadId = none ∧ e.fileId = none) ∧
    (∀ (idGen : Nat → String) (prev : List UploadFile) (newFiles : List JsFile),
      newFiles.filter isValidUpload = [] → addFiles idGen prev newFiles = prev) := by
  have key : ∀ (idGen : Nat → String) (prev : List UploadFile) (newFiles : List JsFile),
      addFiles idGen prev newFiles =
        if (newFiles.filter isValidUpload).isEmpty then prev
        else prev ++ mkUploadEntries idGen 0 (newFiles.filter isValidUpload) :=
    fun _ _ _ => rfl
  refine ⟨fun idGen prev newFiles => ?_, fun idGen prev newFiles => ?_,
    fun idGen prev newFiles e he => ?_, fun idGen prev newFiles h => ?_⟩
  · rw [key]
    cases hv : newFiles.filter isValidUpload with
    | nil => simp [List.take_length]
    | cons f fs => simp [List.take_left]
  · rw [key]
    cases hv : newFiles.filter isValidUpload with
    | nil => simp
    | cons f fs => simp [List.drop_left, mkUploadEntries_map_file]
  · rw [key] at he
    cases hv : newFiles.filter isValidUpload with
    | nil =>
      rw [hv] at he
      simp only [List.isEmpty_nil, if_true] at he
      simp [List.drop_length] at he
    | cons f fs =>
      rw [hv] at he
      simp only [List.isEmpty_cons, Bool.false_eq_true, if_false, List.drop_left] at he
      exact mkUploadEntries_fresh idGen 0 (f :: fs) e he
  · rw [key, h]
    simp

/-! ## `src/components/ui/use-toast.ts`: the toast list -/

/-- A `ToasterToast` (the `open` flag is named `isOpen`, `open` being a Lean
keyword). -/
structure Toast where
  id : String
  title : Option String
  description : Option String
  isOpen : Bool
  deriving DecidableEq

/-- A `Partial<ToasterToast>` patch merged by `UPDATE_TOAST`: the id is
always present (`{ ...props, id }`), the other fields are present or
absent. -/
structure ToastPatch where
  id : String
  title : Option (Option String)
  description : Option (Option String)
  isOpen : Option Bool
  deriving DecidableEq

/-- The JS spread `{ ...t, ...patch }`: every field present in the patch
overwrites the toast's. -/
def applyPatch (t : Toast) (p : ToastPatch) : Toast :=
  { id := p.id, title := p.title.getD t.title,
    description := p.description.getD t.description,
    isOpen := p.isOpen.getD t.isOpen }

/-- The four toast actions (`ADD_TOAST`, `UPDATE_TOAST`, `DISMISS_TOAST`,
`REMOVE_TOAST`). -/
inductive ToastAction
  | add (t : Toast)
  | update (p : ToastPatch)
  | dismiss (toastId : Option String)
  | remove (toastId : Option String)
  deriving DecidableEq

/-- `State` of `use-toast.ts`. -/
structure ToastState where
  toasts : List Toast
  deriving DecidableEq

/-- `TOAST_LIMIT` from `use-toast.ts`. -/
def TOAST_LIMIT : Nat := 5

/-- `toastReducer` from `src/components/ui/use-toast.ts`: `ADD_TOAST`
prepends and truncates to `TOAST_LIMIT`, `UPDATE_TOAST` and `DISMISS_TOAST`
map over the list, `REMOVE_TOAST` filters it (everything, when no id is
given). The `toast` / `update` / `dismiss` closures of the hook-local
variant in the same file perform exactly the `ADD_TOAST`, `UPDATE_TOAST`
and `DISMISS_TOAST` list transformations. -/
def toastReducer (s : ToastState) (a : ToastAction) : ToastState :=
  match a with
  | .add t => { toasts := (t :: s.toasts).take TOAST_LIMIT }
  | .update p =>
    { toasts := s.toasts.map fun t => if t.id = p.id then applyPatch t p else t }
  | .dismiss toastId =>
    { toasts := s.toasts.map fun t =>
        if some t.id = toastId ∨ toastId = none then { t with isOpen := false } else t }
  | .remove none => { toasts := [] }
  | .remove (some toastId) => { toasts := s.toasts.filter fun t => t.id ≠ toastId }

/-- The initial `useState<State>({ toasts: [] })`. -/
def initialToastState : ToastState := { toasts := [] }

/-- C8: the toast list never holds more than 5 entries — every reducer step
preserves the bound (so any action sequence from the empty initial state
stays within it), `ADD_TOAST` is prepend-then-truncate-to-5, and the other
actions never grow the list. -/
theorem toastReducer_limit :
    (∀ (s : ToastState) (a : ToastAction),
      s.toasts.length ≤ 5 → (toastReducer s a).toasts.length ≤ 5) ∧
    (∀ acts : List ToastAction,
      (acts.foldl toastReducer initialToastState).toasts.length ≤ 5) ∧
    (∀ (s : ToastState) (t : Toast),
      (toastReducer s (.add t)).toasts = (t :: s.toasts).take 5) ∧
    (∀ (s : ToastState) (p : ToastPatch),
      (toastReducer s (.update p)).toasts.length = s.toasts.length) ∧
    (∀ (s : ToastState) (toastId : Option String),
      (toastReducer s (.dismiss toastId)).toasts.length = s.toasts.length) ∧
    (∀ (s : ToastState) (toastId : Option String),
      (toastReducer s (.remove toastId)).toasts.length ≤ s.toasts.length) := by
  have step : ∀ (s : ToastState) (a : ToastAction),
      s.toasts.length ≤ 5 → (toastReducer s a).toasts.length ≤ 5 := by
    intro s a h
    cases a with
    | add t =>
      calc (toastReducer s (.add t)).toasts.length
          ≤ TOAST_LIMIT := List.length_take_le _ _
        _ ≤ 5 := le_rfl
    | update p => simpa [toastReducer] using h
    | dismiss toastId => simpa [toastReducer] using h
    | remove toastId =>
      cases toastId with
      | none => simp [toastReducer]
      | some tid =>
        exact le_trans (by simpa [toastReducer] using List.length_filter_le _ s.toasts) h
  refine ⟨step, fun acts => ?_, fun s t => rfl, fun s p => by simp [toastReducer],
    fun s toastId => by simp [toastReducer], fun s toastId => ?_⟩
  · have general : ∀ (acts : List ToastAction) (s : ToastState),
        s.toasts.length ≤ 5 → (acts.foldl toastReducer s).toasts.length ≤ 5 := by
      intro acts
      induction acts with
      | nil => intro s h; simpa using h
      | cons a rest ih => intro s h; exact ih (toastReducer s a) (step s a h)
    exact general acts initialToastState (by simp [initialToastState])
  · cases toastId with
    | none => simp [toastReducer]
    | some tid => simpa [toastReducer] using List.length_filter_le _ s.toasts

/-! ## `src/contexts/FileProcessingContext.tsx`: processing state -/

/-- One `{ fileId, filename }` pair of a `processingStart` payload or a
process-API response. -/
structure ProcessingFileInfo where
  fileId : String
  filename : String
  deriving DecidableEq

/-- One per-file result of a `processingComplete` payload. -/
structure ProcessingFileResult where
  fileId : String
  filename : String
  chunks : Rat
  totalCharacters : Rat
  deriving DecidableEq

/-- `ProcessingResults` stored in the context state. -/
structure ProcessingResults where
  totalChunks : Rat
  totalCharacters : Rat
  results : List ProcessingFileResult
  deriving DecidableEq

/-- `FileProcessingContextState`: the sixteen `useState` slots of the
provider. -/
structure FPState where
  processingId : Option String
  uploadId : Option String
  processingStatus : UiStatus
  processingProgress : Rat
  currentFile : Option String
  processedFiles : Rat
  totalFiles : Rat
  processingError : Option String
  processingResults : Option ProcessingResults
  isModalOpen : Bool
  currentChunk : Option Rat
  totalChunks : Option Rat
  embeddingProgress : Option Rat
  fileProgress : Option Rat
  statusMessage : Option String
  serverStatus : Option SocketStatus
  deriving DecidableEq

/-- The initial values of the sixteen `useState` calls. -/
def initialFPState : FPState :=
  { processingId := none, uploadId := none, processingStatus := .idle,
    processingProgress := 0, currentFile := none, processedFiles := 0,
    totalFiles := 0, processingError := none, processingResults := none,
    isModalOpen := false, currentChunk := none, totalChunks := none,
    embeddingProgress := none, fileProgress := none, statusMessage := none,
    serverStatus := none }

/-- `ProcessingStartData` from `src/lib/socket.ts`. -/
structure ProcessingStartData where
  uploadId : String
  processingId : String
  totalFiles : Rat
  status : Option SocketStatus
  message : Option String
  files : List ProcessingFileInfo
  deriving DecidableEq

/-- `ProcessingProgressData` from `src/lib/socket.ts`: `currentFile` and
`fileId` are nullable, the optional numeric fields are `Option Rat`. -/
structure ProcessingProgressData where
  uploadId : String
  processingId : String
  currentFile : Option String
  fileId : Option String
  fileIndex : Option Rat
  processedFiles : Rat
  totalFiles : Rat
  percent : Rat
  fileProgress : Option Rat
  overallProgress : Option Rat
  embeddingProgress : Option Rat
  currentChunk : Option Rat
  totalChunks : Option Rat
  processedChunks : Option Rat
  chunkSize : Option Rat
  status : Option SocketStatus
  message : Option String
  deriving DecidableEq

/-- `ProcessingCompleteData` from `src/lib/socket.ts`. -/
structure ProcessingCompleteData where
  uploadId : String
  processingId : String
  processedFiles : Rat
  totalFiles : Rat
  processedChunks : Option Rat
  totalChunks : Rat
  totalCharacters : Rat
  overallProgress : Option Rat
  status : Option SocketStatus
  message : Option String
  results : List ProcessingFileResult
  deriving DecidableEq

/-- `ProcessingErrorData` from `src/lib/socket.ts`. -/
structure ProcessingErrorData where
  uploadId : String
  processingId : String
  fileId : Option String
  filename : Option String
  fileIndex : Option Rat
  processedFiles : Option Rat
  totalFiles : Option Rat
  error : String
  status : Option SocketStatus
  message : Option String
  deriving DecidableEq

/-- The acceptance test shared by all four processing handlers:
`data.uploadId === uploadId || (data.uploadId && !uploadId)`. Under JS
truthiness, `!uploadId` holds both for `null` and for the empty string. -/
def acceptsEvent (stateUploadId : Option String) (eventUploadId : String) : Prop :=
  stateUploadId = some eventUploadId ∨
    (eventUploadId ≠ "" ∧ optStrTruthy stateUploadId = false)

instance (stateUploadId : Option String) (eventUploadId : String) :
    Decidable (acceptsEvent stateUploadId eventUploadId) := by
  unfold acceptsEvent
  infer_instance

/-- `if (!uploadId && data.uploadId) setUploadId(data.uploadId)`, the
uploadId adoption step at the head of each accepted handler branch. -/
def adoptUploadId (st : FPState) (eventUploadId : String) : FPState :=
  if optStrTruthy st.uploadId = false ∧ eventUploadId ≠ "" then
    { st with uploadId := some eventUploadId }
  else st

/-- `handleProcessingStart` from the `handlersRef` of
`FileProcessingContext`. `data.status` is truthy exactly when present
(every member of the socket union is a non-empty string); `data.message`
is truthy when present and non-empty. -/
def handleProcessingStart (st : FPState) (data : ProcessingStartData) : FPState :=
  if acceptsEvent st.uploadId data.uploadId then
    let st := adoptUploadId st data.uploadId
    { st with
      processingStatus := .processing
      processingProgress := 0
      processedFiles := 0
      totalFiles := data.totalFiles
      processingId := some data.processingId
      serverStatus := if data.status.isSome then data.status else st.serverStatus
      statusMessage := if optStrTruthy data.message then data.message else st.statusMessage }
  else st

/-- `handleProcessingProgress` from the `handlersRef`. The
`!== undefined` guards on `currentFile`, `processedFiles` and `totalFiles`
always pass (those payload fields are not optional); the optional chunk /
progress fields are copied only when present; the progress is
`overallProgress` when present, else `percent`. -/
def handleProcessingProgress (st : FPState) (data : ProcessingProgressData) : FPState :=
  if acceptsEvent st.uploadId data.uploadId then
    let st := adoptUploadId st data.uploadId
    { st with
      currentFile := data.currentFile
      processedFiles := data.processedFiles
      totalFiles := data.totalFiles
      processingProgress := data.overallProgress.getD data.percent
      currentChunk := match data.currentChunk with
        | some v => some v
        | none => st.currentChunk
      totalChunks := match data.totalChunks with
        | some v => some v
        | none => st.totalChunks
      fileProgress := match data.fileProgress with
        | some v => some v
        | none => st.fileProgress
      embeddingProgress := match data.embeddingProgress with
        | some v => some v
        | none => st.embeddingProgress
      serverStatus := if data.status.isSome then data.status else st.serverStatus
      processingStatus := match data.status with
        | some s => mapSocketStatusToUiStatus (some s)
        | none => st.processingStatus
      statusMessage := if optStrTruthy data.message then data.message else st.statusMessage }
  else st

/-- `handleProcessingComplete` from the `handlersRef`. -/
def handleProcessingComplete (st : FPState) (data : ProcessingCompleteData) : FPState :=
  if acceptsEvent st.uploadId data.uploadId then
    let st := adoptUploadId st data.uploadId
    { st with
      processingStatus := .complete
      processingProgress := 100
      processedFiles := data.processedFiles
      totalFiles := data.totalFiles
      processingResults := some
        { totalChunks := data.totalChunks,
          totalCharacters := data.totalCharacters, results := data.results }
      serverStatus := if data.status.isSome then data.status else st.serverStatus
      statusMessage := if optStrTruthy data.message then data.message else st.statusMessage }
  else st

/-- `handleProcessingError` from the `handlersRef`. -/
def handleProcessingError (st : FPState) (data : ProcessingErrorData) : FPState :=
  if acceptsEvent st.uploadId data.uploadId then
    let st := adoptUploadId st data.uploadId
    { st with
      processingStatus := .error
      processingError := some data.error
      serverStatus := if data.status.isSome then data.status else st.serverStatus
      statusMessage := if optStrTruthy data.message then data.message else st.statusMessage }
  else st

theorem adoptUploadId_uploadId (st : FPState) (evId : String)
    (h : acceptsEvent st.uploadId evId) :
    (adoptUploadId st evId).uploadId =
      if optStrTruthy st.uploadId then st.uploadId else some evId := by
  unfold adoptUploadId
  cases ht : optStrTruthy st.uploadId with
  | true => simp [ht]
  | false =>
    by_cases hev : evId = ""
    · subst hev
      rcases h with h | ⟨hne, _⟩
      · simp [ht, h]
      · exact absurd rfl hne
    · simp [ht, hev]

/-- C1 (amended): each processing handler applies the event's updates
exactly when the event's uploadId equals the context's uploadId, or the
context's uploadId is null or the empty string while the event's uploadId
is non-empty (the first conjunct characterises the shared acceptance test);
on rejection the state is returned unchanged; on acceptance the context's
uploadId becomes the event's uploadId whenever it was null or empty, stays
put otherwise, and the handler-specific fields are set from the event. -/
theorem processingHandlers_spec :
    (∀ (stId : Option String) (evId : String),
      acceptsEvent stId evId ↔
        (stId = some evId ∨ (evId ≠ "" ∧ (stId = none ∨ stId = some "")))) ∧
    (∀ (st : FPState) (d : ProcessingStartData),
      ¬ acceptsEvent st.uploadId d.uploadId → handleProcessingStart st d = st) ∧
    (∀ (st : FPState) (d : ProcessingProgressData),
      ¬ acceptsEvent st.uploadId d.uploadId → handleProcessingProgress st d = st) ∧
    (∀ (st : FPState) (d : ProcessingCompleteData),
      ¬ acceptsEvent st.uploadId d.uploadId → handleProcessingComplete st d = st) ∧
    (∀ (st : FPState) (d : ProcessingErrorData),
      ¬ acceptsEvent st.uploadId d.uploadId → handleProcessingError st d = st) ∧
    (∀ (st : FPState) (d : ProcessingStartData),
      acceptsEvent st.uploadId d.uploadId →
        (handleProcessingStart st d).uploadId =
          (if optStrTruthy st.uploadId then st.uploadId else some d.uploadId) ∧
        (handleProcessingStart st d).processingStatus = .processing ∧
        (handleProcessingStart st d).processingProgress = 0 ∧
        (handleProcessingStart st d).processedFiles = 0 ∧
        (handleProcessingStart st d).totalFiles = d.totalFiles ∧
        (handleProcessingStart st d).processingId = some d.processingId) ∧
    (∀ (st : FPState) (d : ProcessingProgressData),
      acceptsEvent st.uploadId d.uploadId →
        (handleProcessingProgress st d).uploadId =
          (if optStrTruthy st.uploadId then st.uploadId else some d.uploadId) ∧
        (handleProcessingProgress st d).processingProgress =
          d.overallProgress.getD d.percent ∧
        (handleProcessingProgress st d).processedFiles = d.processedFiles ∧
        (handleProcessingProgress st d).totalFiles = d.totalFiles ∧
        (handleProcessingProgress st d).currentFile = d.currentFile) ∧
    (∀ (st : FPState) (d : ProcessingCompleteData),
      acceptsEvent st.uploadId d.uploadId →
        (handleProcessingComplete st d).uploadId =
          (if optStrTruthy st.uploadId then st.uploadId else some d.uploadId) ∧
        (handleProcessingComplete st d).processingStatus = .complete ∧
        (handleProcessingComplete st d).processingProgress = 100 ∧
        (handleProcessingComplete st d).processingResults = some
          { totalChunks := d.totalChunks, totalCharacters := d.totalCharacters,
            results := d.results }) ∧
    (∀ (st : FPState) (d : ProcessingErrorData),
      acceptsEvent st.uploadId d.uploadId →
        (handleProcessingError st d).uploadId =
          (if optStrTruthy st.uploadId then st.uploadId else some d.uploadId) ∧
        (handleProcessingError st d).processingStatus = .error ∧
        (handleProcessingError st d).processingError = some d.error) := by
  refine ⟨fun stId evId => ?_, fun st d h => by simp [handleProcessingStart, h],
    fun st d h => by simp [handleProcessingProgress, h],
    fun st d h => by simp [handleProcessingComplete, h],
    fun st d h => by simp [handleProcessingError, h],
    fun st d h => ?_, fun st d h => ?_, fun st d h => ?_, fun st d h => ?_⟩
  · rcases stId with _ | s
    · simp [acceptsEvent, optStrTruthy]
    · simp [acceptsEvent, optStrTruthy]
  · have e : (handleProcessingStart st d).uploadId =
        (adoptUploadId st d.uploadId).uploadId := by
      simp [handleProcessingStart, h]
    exact ⟨e.trans (adoptUploadId_uploadId st d.uploadId h),
      by simp [handleProcessingStart, h], by simp [handleProcessingStart, h],
      by simp [handleProcessingStart, h], by simp [handleProcessingStart, h],
      by simp [handleProcessingStart, h]⟩
  · have e : (handleProcessingProgress st d).uploadId =
        (adoptUploadId st d.uploadId).uploadId := by
      simp [handleProcessingProgress, h]
    exact ⟨e.trans (adoptUploadId_uploadId st d.uploadId h),
      by simp [handleProcessingProgress, h], by simp [handleProcessingProgress, h],
      by simp [handleProcessingProgress, h], by simp [handleProcessingProgress, h]⟩
  · have e : (handleProcessingComplete st d).uploadId =
        (adoptUploadId st d.uploadId).uploadId := by
      simp [handleProcessingComplete, h]
    exact ⟨e.trans (adoptUploadId_uploadId st d.uploadId h),
      by simp [handleProcessingComplete, h], by simp [handleProcessingComplete, h],
      by simp [handleProcessingComplete, h]⟩
  · have e : (handleProcessingError st d).uploadId =
        (adoptUploadId st d.uploadId).uploadId := by
      simp [handleProcessingError, h]
    exact ⟨e.trans (adoptUploadId_uploadId st d.uploadId h),
      by simp [handleProcessingError, h], by simp [handleProcessingError, h]⟩

/-- A context state whose uploadId is the empty string: not null, yet falsy
to the handlers' `!uploadId` test. -/
def mismatchState : FPState := { initialFPState with uploadId := some "" }

/-- A `processingStart` payload whose uploadId differs from
`mismatchState`'s. -/
def mismatchStartData : ProcessingStartData :=
  { uploadId := "server-upload-1", processingId := "processing-1",
    totalFiles := 2, status := none, message := none, files := [] }

/-- C1 counterexample: with the context's uploadId equal to `some ""` (not
null) and an event whose uploadId differs from it, the claim requires the
handler to leave every field unchanged, but `handleProcessingStart` accepts
the event (the JS `!uploadId` test treats the empty string like null) and
rewrites the state. -/
theorem processingHandlers_cex :
    mismatchState.uploadId ≠ none ∧
    some mismatchStartData.uploadId ≠ mismatchState.uploadId ∧
    handleProcessingStart mismatchState mismatchStartData ≠ mismatchState := by
  refine ⟨by decide, by decide, fun h => ?_⟩
  have hs := congrArg FPState.processingStatus h
  have e : (handleProcessingStart mismatchState mismatchStartData).processingStatus =
      UiStatus.processing := by decide
  rw [e] at hs
  exact absurd hs (by decide)

/-- The body of the `/api/files/process` POST response that
`startProcessing` reads. -/
structure ProcessApiResponse where
  message : String
  processingId : String
  uploadId : String
  totalFiles : Rat
  files : List ProcessingFileInfo
  deriving DecidableEq

/-- The externally visible side effects of one `startProcessing` call: the
rooms passed to `socketService.joinUploadRoom` in order, the POST requests
issued (uploadId, fileIds), and the pairs passed to
`socketService.mapServerToClientId`. -/
structure StartEffects where
  joinedRooms : List String
  apiRequests : List (String × List String)
  idMappingsAdded : List (String × String)
  deriving DecidableEq

/-- `startProcessing(uploadId, fileIds)` from `FileProcessingContext`. The
guard returns untouched state and no effects when already processing, when
the uploadId argument is falsy (empty), or when `fileIds` is empty.
Otherwise the state is reset for a new run, the client room is joined and
the POST issued; the awaited response (or the thrown error, modelled as
`Except.error` with the error message) drives the rest: a non-empty
server uploadId different from the client's is mapped, its room joined,
and adopted into the state; a truthy (non-empty) server processingId is
always stored. -/
def startProcessing (st : FPState) (uploadId : String) (fileIds : List String)
    (response : Except String ProcessApiResponse) : FPState × StartEffects :=
  if st.processingStatus = .processing ∨ uploadId = "" ∨ fileIds = [] then
    (st, { joinedRooms := [], apiRequests := [], idMappingsAdded := [] })
  else
    let clientUploadId := uploadId
    let st1 : FPState := { st with
      uploadId := some clientUploadId
      processingStatus := .processing
      processingProgress := 0
      processingError := none
      currentChunk := none
      totalChunks := none
      embeddingProgress := none
      fileProgress := none
      statusMessage := none
      serverStatus := none
      isModalOpen := true }
    match response with
    | .error msg =>
      ({ st1 with processingStatus := .error, processingError := some msg },
       { joinedRooms := [clientUploadId],
         apiRequests := [(clientUploadId, fileIds)], idMappingsAdded := [] })
    | .ok r =>
      if r.uploadId ≠ "" ∧ r.uploadId ≠ clientUploadId then
        let st2 : FPState := { st1 with uploadId := some r.uploadId }
        let st3 : FPState :=
          if r.processingId ≠ "" then { st2 with processingId := some r.processingId }
          else st2
        (st3,
         { joinedRooms := [clientUploadId, r.uploadId],
           apiRequests := [(clientUploadId, fileIds)],
           idMappingsAdded := [(r.uploadId, clientUploadId)] })
      else
        let st3 : FPState :=
          if r.processingId ≠ "" then { st1 with processingId := some r.processingId }
          else st1
        (st3,
         { joinedRooms := [clientUploadId],
           apiRequests := [(clientUploadId, fileIds)], idMappingsAdded := [] })

/-- C9: when `startProcessing` is called while already processing, or with
an empty uploadId, or with no file ids, it returns with the state exactly
as before, no room joined, no request issued and no mapping added. -/
theorem startProcessing_guard (st : FPState) (uploadId : String)
    (fileIds : List String) (response : Except String ProcessApiResponse)
    (h : st.processingStatus = .processing ∨ uploadId = "" ∨ fileIds = []) :
    startProcessing st uploadId fileIds response =
      (st, { joinedRooms := [], apiRequests := [], idMappingsAdded := [] }) := by
  simp [startProcessing, h]

/-- C9 witness: the guard theorem applied at a concrete idle state with an
empty uploadId argument. -/
theorem startProcessing_guard_witness :
    startProcessing initialFPState "" ["file-1"] (.error "network down") =
      (initialFPState,
        { joinedRooms := [], apiRequests := [], idMappingsAdded := [] }) :=
  startProcessing_guard initialFPState "" ["file-1"] (.error "network down")
    (Or.inr (Or.inl rfl))

/-! ## `src/lib/socket.ts`: the event listener wrappers -/

/-- `UploadCompleteData` from `src/lib/socket.ts`. -/
structure UploadCompleteData where
  uploadId : String
  message : String
  filename : String
  fileId : String
  status : String
  completed : Bool
  bytesReceived : Rat
  bytesExpected : Rat
  percent : Rat
  deriving DecidableEq

/-- `UploadErrorData` from `src/lib/socket.ts`. -/
structure UploadErrorData where
  uploadId : String
  error : String
  deriving DecidableEq

/-- The payload the `uploadProgress` listener hands to the registered
callback: `{ ...data, uploadId: this.getClientId(data.uploadId) }`. -/
def dispatchUploadProgress (m : IdMap) (data : UploadProgressData) :
    UploadProgressData :=
  { data with uploadId := getClientId m data.uploadId }

/-- The payload the `uploadComplete` listener hands to the callback. -/
def dispatchUploadComplete (m : IdMap) (data : UploadCompleteData) :
    UploadCompleteData :=
  { data with uploadId := getClientId m data.uploadId }

/-- The payload the `uploadError` listener hands to the callback. -/
def dispatchUploadError (m : IdMap) (data : UploadErrorData) :
    UploadErrorData :=
  { data with uploadId := getClientId m data.uploadId }

/-- The payload the `processingStart` listener hands to the callback (the
listener's extra branch only logs). -/
def dispatchProcessingStart (m : IdMap) (data : ProcessingStartData) :
    ProcessingStartData :=
  { data with uploadId := getClientId m data.uploadId }

/-- The payload the `processingProgress` listener hands to the callback. -/
def dispatchProcessingProgress (m : IdMap) (data : ProcessingProgressData) :
    ProcessingProgressData :=
  { data with uploadId := getClientId m data.uploadId }

/-- The payload the `processingComplete` listener hands to the callback. -/
def dispatchProcessingComplete (m : IdMap) (data : ProcessingCompleteData) :
    ProcessingCompleteData :=
  { data with uploadId := getClientId m data.uploadId }

/-- The payload the `processingError` listener hands to the callback. -/
def dispatchProcessingError (m : IdMap) (data : ProcessingErrorData) :
    ProcessingErrorData :=
  { data with uploadId := getClientId m data.uploadId }

/-- C2: every upload / processing listener invokes its callback with the
payload unchanged except that `uploadId` is replaced by
`getClientId(uploadId)`; the non-uploadId fields of the two
progress payloads are spelled out; a mapped non-empty client id is what is
substituted, and an unmapped uploadId passes through unchanged. -/
theorem socketDispatch_spec :
    (∀ (m : IdMap) (d : UploadProgressData),
      dispatchUploadProgress m d = { d with uploadId := getClientId m d.uploadId }) ∧
    (∀ (m : IdMap) (d : UploadProgressData),
      (dispatchUploadProgress m d).bytesReceived = d.bytesReceived ∧
      (dispatchUploadProgress m d).bytesExpected = d.bytesExpected ∧
      (dispatchUploadProgress m d).percent = d.percent ∧
      (dispatchUploadProgress m d).completed = d.completed) ∧
    (∀ (m : IdMap) (d : ProcessingProgressData),
      dispatchProcessingProgress m d =
        { d with uploadId := getClientId m d.uploadId }) ∧
    (∀ (m : IdMap) (d : ProcessingProgressData),
      (dispatchProcessingProgress m d).processingId = d.processingId ∧
      (dispatchProcessingProgress m d).currentFile = d.currentFile ∧
      (dispatchProcessingProgress m d).processedFiles = d.processedFiles ∧
      (dispatchProcessingProgress m d).totalFiles = d.totalFiles ∧
      (dispatchProcessingProgress m d).percent = d.percent ∧
      (dispatchProcessingProgress m d).overallProgress = d.overallProgress ∧
      (dispatchProcessingProgress m d).status = d.status ∧
      (dispatchProcessingProgress m d).message = d.message) ∧
    (∀ (m : IdMap) (d : UploadCompleteData),
      dispatchUploadComplete m d = { d with uploadId := getClientId m d.uploadId }) ∧
    (∀ (m : IdMap) (d : UploadErrorData),
      dispatchUploadError m d = { d with uploadId := getClientId m d.uploadId }) ∧
    (∀ (m : IdMap) (d : ProcessingStartData),
      dispatchProcessingStart m d = { d with uploadId := getClientId m d.uploadId }) ∧
    (∀ (m : IdMap) (d : ProcessingCompleteData),
      dispatchProcessingComplete m d =
        { d with uploadId := getClientId m d.uploadId }) ∧
    (∀ (m : IdMap) (d : ProcessingErrorData),
      dispatchProcessingError m d = { d with uploadId := getClientId m d.uploadId }) ∧
    (∀ (m : IdMap) (s c : String), mapGet s m = some c → c ≠ "" →
      getClientId m s = c) ∧
    (∀ (m : IdMap) (s : String), mapGet s m = none → getClientId m s = s) := by
  refine ⟨fun m d => rfl, fun m d => ⟨rfl, rfl, rfl, rfl⟩, fun m d => rfl,
    fun m d => ⟨rfl, rfl, rfl, rfl, rfl, rfl, rfl, rfl⟩, fun m d => rfl,
    fun m d => rfl, fun m d => rfl, fun m d => rfl, fun m d => rfl,
    fun m s c hm hc => ?_, fun m s hm => ?_⟩
  · simp [getClientId, hm, hc]
  · simp [getClientId, hm]

/-! ## Concrete evaluations: the guarded branches above are reachable -/

/-- A file mid-upload, matching the sample progress event below. -/
def sampleUploadFile : UploadFile :=
  { id := "client-file-1", file := { name := "notes.md", type := "text/markdown" },
    uploadId := some "u-1", fileId := none, progress := 10,
    status := .uploading, error := none }

/-- An `uploadProgress` payload for `sampleUploadFile`. -/
def sampleProgressEvent : UploadProgressData :=
  { uploadId := "u-1", bytesReceived := 50, bytesExpected := 100,
    percent := 50, completed := false }

theorem handleUploadProgress_example :
    handleUploadProgress [sampleUploadFile] sampleProgressEvent =
      [{ sampleUploadFile with progress := 50, status := UploadStatus.uploading }] := by
  decide

theorem handleProcessingStart_accept_example :
    (handleProcessingStart initialFPState mismatchStartData).uploadId =
      some "server-upload-1" ∧
    (handleProcessingStart initialFPState mismatchStartData).processingStatus =
      UiStatus.processing := by
  decide

/-- A completed file, for the rounded-mean evaluation below. -/
def sampleCompletedFile : UploadFile :=
  { id := "client-file-2", file := { name := "plan.pdf", type := "application/pdf" },
    uploadId := some "u-2", fileId := some "f-2", progress := 91,
    status := .completed, error := none }

theorem recomputeUploadSummary_example :
    (recomputeUploadSummary [sampleUploadFile, sampleCompletedFile] true).1 = 51 := by
  have e : (recomputeUploadSummary [sampleUploadFile, sampleCompletedFile] true).1 =
      jsRound ((0 + (10 : Rat) + 91) / ((2 : Nat) : Rat)) := rfl
  rw [e]
  unfold jsRound
  have hx : (0 + (10 : Rat) + 91) / ((2 : Nat) : Rat) + 1 / 2 = 51 := by norm_num
  rw [hx]
  have hf : Rat.floor (51 : Rat) = ⌊(51 : Rat)⌋ := rfl
  rw [hf]
  simp

end FormForge
